import Mathlib

/-!
Verification of the `DatetimeFormatter` data processor
(`sdgx/data_processors/formatters/datetime.py`).

The embedding models:
  * calendar datetimes (`DT`) and the POSIX epoch arithmetic used by
    `datetime.timestamp` / `datetime.fromtimestamp` (local timezone taken to
    be UTC; timezone handling is an explicit non-goal of the component);
  * the `%Y %m %d %H %M %S %%` directive subset of `strftime`/`strptime`,
    with `strptime` following CPython's `_strptime` regex alternatives
    (two-digit fields tried before one-digit fields) and the datetime
    constructor's validity checks;
  * heterogeneous pandas cells (`Cell`): missing values (NaN/None/NaT),
    strings, native datetime values, and numeric (float64) values;
  * tables as ordered lists of named columns;
  * the formatter state and its `fit` / `convert` / `reverse_convert`
    operations.  Exceptions that can escape an operation are modelled with
    `Option` (`none` = an uncaught exception propagates to the caller);
    per-cell exceptions that the code catches are folded into the per-cell
    result (`Cell.missing` forward, the `"No Datetime"` sentinel backward).
-/

/-- A calendar datetime: the fields of a (naive) Python `datetime`, also used
as the accumulator of field values during `strptime` parsing (CPython defaults:
1900-01-01 00:00:00). -/
structure DT where
  year : Nat
  month : Nat
  day : Nat
  hour : Nat
  minute : Nat
  second : Nat
deriving DecidableEq

/-- Days from civil date (proleptic Gregorian), days since 1970-01-01.
This is the arithmetic underlying `datetime.timestamp` for naive datetimes
when the local timezone is UTC. -/
def daysFromCivil (y0 : Int) (m d : Nat) : Int :=
  let y : Int := if m ≤ 2 then y0 - 1 else y0
  let era : Int := y.fdiv 400
  let yoe : Nat := (y - era * 400).toNat
  let mp : Nat := if m > 2 then m - 3 else m + 9
  let doy : Nat := (153 * mp + 2) / 5 + d - 1
  let doe : Nat := yoe * 365 + yoe / 4 - yoe / 100 + doy
  era * 146097 + (doe : Int) - 719468

/-- Models `datetime.timestamp(d)` for a naive datetime `d` (UTC local time):
seconds since the POSIX epoch. -/
def timestampOf (d : DT) : Int :=
  daysFromCivil (d.year : Int) d.month d.day * 86400
    + ((d.hour * 3600 + d.minute * 60 + d.second : Nat) : Int)

/-- Civil date from days since 1970-01-01 (proleptic Gregorian). -/
def civilFromDays (z0 : Int) : Int × Nat × Nat :=
  let z : Int := z0 + 719468
  let era : Int := z.fdiv 146097
  let doe : Nat := (z - era * 146097).toNat
  let yoe : Nat := (doe - doe / 1460 + doe / 36524 - doe / 146096) / 365
  let y : Int := (yoe : Int) + era * 400
  let doy : Nat := doe - (365 * yoe + yoe / 4 - yoe / 100)
  let mp : Nat := (5 * doy + 2) / 153
  let d : Nat := doy - (153 * mp + 2) / 5 + 1
  let m : Nat := if mp < 10 then mp + 3 else mp - 9
  (if m ≤ 2 then y + 1 else y, m, d)

/-- Models `datetime.fromtimestamp(t)` with the local timezone taken to be
UTC.  On the range guarded by `column_timestamp_formatter`
(`0 ≤ t ≤ 253402300799`) the resulting year lies in 1970..9999, so the
`OverflowError` branch of the surrounding `try/except` is unreachable and the
conversion is total. -/
def fromtimestamp (t : Int) : DT :=
  let days : Int := t.fdiv 86400
  let rem : Nat := (t - days * 86400).toNat
  let c := civilFromDays days
  ⟨c.1.toNat, c.2.1, c.2.2, rem / 3600, rem % 3600 / 60, rem % 60⟩

/-- Zero-pad a number to two digits, as `strftime` does for
`%m %d %H %M %S`. -/
def pad2 (n : Nat) : String :=
  if n < 10 then "0" ++ toString n else toString n

/-- Zero-pad a number to four digits, as `strftime` does for `%Y`. -/
def pad4 (n : Nat) : String :=
  if n < 10 then "000" ++ toString n
  else if n < 100 then "00" ++ toString n
  else if n < 1000 then "0" ++ toString n
  else toString n

/-- Render a datetime through a format string, character list form. -/
def strftimeAux (d : DT) : List Char → String
  | [] => ""
  | '%' :: c :: rest =>
    (match c with
     | 'Y' => pad4 d.year
     | 'm' => pad2 d.month
     | 'd' => pad2 d.day
     | 'H' => pad2 d.hour
     | 'M' => pad2 d.minute
     | 'S' => pad2 d.second
     | '%' => "%"
     | other => String.mk ['%', other]) ++ strftimeAux d rest
  | c :: rest => String.mk [c] ++ strftimeAux d rest

/-- Models `d.strftime(fmt)` for the directive subset `%Y %m %d %H %M %S %%`
(unknown directives are passed through). -/
def strftime (d : DT) (fmt : String) : String :=
  strftimeAux d fmt.data

/-- Numeric value of a decimal digit character. -/
def digitVal (c : Char) : Nat := c.toNat - '0'.toNat

/-- Read exactly two digits forming a value in `[lo, hi]`
(a two-digit regex alternative of CPython `_strptime`). -/
def twoDigit (lo hi : Nat) (s : List Char) : Option (Nat × List Char) :=
  match s with
  | a :: b :: rest =>
    if a.isDigit ∧ b.isDigit then
      let v := 10 * digitVal a + digitVal b
      if lo ≤ v ∧ v ≤ hi then some (v, rest) else none
    else none
  | _ => none

/-- Read one digit with value at least `lo`
(the trailing one-digit regex alternative of CPython `_strptime`). -/
def oneDigit (lo : Nat) (s : List Char) : Option (Nat × List Char) :=
  match s with
  | a :: rest =>
    if a.isDigit ∧ lo ≤ digitVal a then some (digitVal a, rest) else none
  | _ => none

/-- Read exactly four digits (the `%Y` regex of CPython `_strptime`). -/
def fourDigit (s : List Char) : Option (Nat × List Char) :=
  match s with
  | a :: b :: c :: d :: rest =>
    if a.isDigit ∧ b.isDigit ∧ c.isDigit ∧ d.isDigit then
      some (1000 * digitVal a + 100 * digitVal b + 10 * digitVal c + digitVal d, rest)
    else none
  | _ => none

/-- Alternatives for a numeric directive, in regex priority order:
two-digit match first, then one-digit match. -/
def numAlts (lo2 hi2 lo1 : Nat) (s : List Char) : List (Nat × List Char) :=
  (twoDigit lo2 hi2 s).toList ++ (oneDigit lo1 s).toList

/-- Parse alternatives for one `strptime` directive, applied to the current
field accumulator.  An unknown directive yields no alternative (CPython
raises `ValueError` on it, so the whole parse fails). -/
def directiveAlts (c : Char) (f : DT) (s : List Char) : List (DT × List Char) :=
  match c with
  | 'Y' => (fourDigit s).toList.map fun p => ({ f with year := p.1 }, p.2)
  | 'm' => (numAlts 1 12 1 s).map fun p => ({ f with month := p.1 }, p.2)
  | 'd' => (numAlts 1 31 1 s).map fun p => ({ f with day := p.1 }, p.2)
  | 'H' => (numAlts 0 23 0 s).map fun p => ({ f with hour := p.1 }, p.2)
  | 'M' => (numAlts 0 59 0 s).map fun p => ({ f with minute := p.1 }, p.2)
  | 'S' => (numAlts 0 61 0 s).map fun p => ({ f with second := p.1 }, p.2)
  | _ => []

/-- Run a format over a priority-ordered list of candidate parse states
(field accumulator, remaining input).  At the end of the format the first
candidate with no remaining input wins; a leftover means CPython's
"unconverted data remains" error. -/
def runFmt : List Char → List (DT × List Char) → Option DT
  | [], states => (states.find? fun p => p.2.isEmpty).map Prod.fst
  | '%' :: '%' :: fr, states =>
    runFmt fr (states.filterMap fun p =>
      match p.2 with
      | '%' :: sr => some (p.1, sr)
      | _ => none)
  | ['%'], _ => none
  | '%' :: c :: fr, states =>
    runFmt fr (states.flatMap fun p => directiveAlts c p.1 p.2)
  | c :: fr, states =>
    runFmt fr (states.filterMap fun p =>
      match p.2 with
      | c2 :: sr => if c2 = c then some (p.1, sr) else none
      | _ => none)

/-- Whether `y` is a Gregorian leap year. -/
def isLeap (y : Nat) : Bool :=
  (y % 4 == 0) && (y % 100 != 0 || y % 400 == 0)

/-- Number of days in month `m` of year `y`. -/
def daysInMonth (y m : Nat) : Nat :=
  if m = 2 then (if isLeap y then 29 else 28)
  else if m = 4 ∨ m = 6 ∨ m = 9 ∨ m = 11 then 30
  else 31

/-- Models `datetime.strptime(s, fmt)` for the directive subset
`%Y %m %d %H %M %S %%`: regex field extraction followed by the `datetime`
constructor's validity checks (year ≥ 1, day within the month, second ≤ 59).
Failure (`none`) models the `ValueError` raised by CPython. -/
def strptime (s fmt : String) : Option DT :=
  match runFmt fmt.data [(⟨1900, 1, 1, 0, 0, 0⟩, s.data)] with
  | some f =>
    if 1 ≤ f.year ∧ 1 ≤ f.day ∧ f.day ≤ daysInMonth f.year f.month ∧ f.second ≤ 59 then
      some f
    else none
  | none => none

/-- A pandas cell value, dispatched on at runtime by the per-cell helpers:
missing marker (NaN / None / NaT), text, native datetime (`pd.Timestamp` /
`datetime`), or a plain numeric (float64) value with integral magnitude. -/
inductive Cell where
  | missing
  | str (s : String)
  | dt (d : DT)
  | num (n : Int)
deriving DecidableEq

/-- Models Python `str()` applied to a float64 cell holding the integral
value `n` (pandas numeric columns that may carry NaN are float64), e.g.
`str(5.0) = "5.0"`. -/
def floatStr (n : Int) : String := toString n ++ ".0"

/-- The per-cell forward converter `datetime_formatter` of
`convert_datetime_columns`: missing propagates (`pd.isna` branch); a native
datetime value is converted directly via `datetime.timestamp`; anything else
is stringified and parsed with `datetime.strptime` against the column
format; any parse failure is caught and becomes NaN (`Cell.missing`). -/
def datetime_formatter (each_value : Cell) (datetime_format : String) : Cell :=
  match each_value with
  | .missing => .missing
  | .dt d => .num (timestampOf d)
  | .str s =>
    match strptime s datetime_format with
    | some d => .num (timestampOf d)
    | none => .missing
  | .num x =>
    match strptime (floatStr x) datetime_format with
    | some d => .num (timestampOf d)
    | none => .missing

/-- The per-cell backward converter `column_timestamp_formatter` of
`convert_timestamp_to_datetime`: missing yields the sentinel (`pd.isna`
branch); a non-numeric value raises `TypeError` in the `0 <= each_stamp`
comparison, which the `except` catches into the sentinel; a numeric value
outside `[0, 253402300799]` fails the guard and yields the sentinel; within
the guard `datetime.fromtimestamp(...).strftime(fmt)` is total (see
`fromtimestamp`). -/
def column_timestamp_formatter (each_stamp : Cell) (timestamp_format : String) : String :=
  match each_stamp with
  | .missing => "No Datetime"
  | .num n =>
    if 0 ≤ n ∧ n ≤ 253402300799 then strftime (fromtimestamp n) timestamp_format
    else "No Datetime"
  | .str _ => "No Datetime"
  | .dt _ => "No Datetime"

/-- A pandas DataFrame, modelled as an ordered list of named columns, each an
ordered list of cells. -/
structure Table where
  cols : List (String × List Cell)
deriving DecidableEq

/-- Membership of a column name in an ordered column list. -/
def colsHave : List (String × List Cell) → String → Bool
  | [], _ => false
  | p :: rest, c => if p.1 = c then true else colsHave rest c

/-- First column with a given name in an ordered column list. -/
def colsGet : List (String × List Cell) → String → Option (List Cell)
  | [], _ => none
  | p :: rest, c => if p.1 = c then some p.2 else colsGet rest c

/-- Apply `f` to the cells of every column named `c`. -/
def colsApply : List (String × List Cell) → String → (Cell → Cell) →
    List (String × List Cell)
  | [], _, _ => []
  | p :: rest, c, f =>
    (if p.1 = c then (p.1, p.2.map f) else p) :: colsApply rest c f

/-- Drop every column whose name is listed in `names`. -/
def colsDrop : List (String × List Cell) → List String →
    List (String × List Cell)
  | [], _ => []
  | p :: rest, names =>
    if names.contains p.1 then colsDrop rest names
    else p :: colsDrop rest names

/-- Whether column `c` is present (`column in df.columns`). -/
def Table.hasCol (t : Table) (c : String) : Bool :=
  colsHave t.cols c

/-- The cells of column `c`, if present. -/
def Table.getCol (t : Table) (c : String) : Option (List Cell) :=
  colsGet t.cols c

/-- `df[c] = df[c].apply(f)`: replace the cells of column `c` by their
images under `f`, leaving all other columns alone. -/
def Table.applyCol (t : Table) (c : String) (f : Cell → Cell) : Table :=
  ⟨colsApply t.cols c f⟩

/-- Modelled from the spec: `Formatter.remove_columns` of the base class
`sdgx/data_processors/formatters/base.py` (not under src/) — "remove named
columns, no error if absent"; it returns a new table. -/
def remove_columns (t : Table) (column_list : List String) : Table :=
  ⟨colsDrop t.cols column_list⟩

/-- Lookup in a mapping from column name to value, modelling Python
`key in d.keys()` / `d[key]` over the metadata dictionaries. -/
def dictGet? : List (String × String) → String → Option String
  | [], _ => none
  | p :: rest, k => if p.1 = k then some p.2 else dictGet? rest k

/-- Total lookup with the default `""` for absent keys.  The formats mapping
comes from `metadata.get("datetime_format")` (the `Metadata` class is not
under src/); per the spec's data model it is "a mapping from column name to
a format-string value (empty string if never set)", which also matches the
`defaultdict(str)` the constructor installs. -/
def dictGetD (d : List (String × String)) (k : String) : String :=
  (dictGet? d k).getD ""

/-- The fitted state of a `DatetimeFormatter` instance. -/
structure FState where
  datetime_columns : List String
  datetime_formats : List (String × String)
  dead_columns : List String
deriving DecidableEq

/-- The slice of the metadata collaborator consumed by `fit`. -/
structure Metadata where
  datetime_format : List (String × String)
  datetime_columns : List String
  discrete_columns : List String
deriving DecidableEq

/-- The state produced by `fit` together with the effects it requested from
the metadata collaborator: whether `change_column_type(datetime_columns,
"discrete", "datetime")` was invoked, and which columns were passed to
`remove_column`. -/
structure FitResult where
  state : FState
  reclassified : Bool
  removed : List String
deriving DecidableEq

/-- `DatetimeFormatter.fit`: partition the metadata's datetime columns by
presence of a key in the `datetime_format` mapping (`each_col in
self.datetime_formats.keys()`); reclassify when
`set(datetime_columns) - set(metadata.discrete_columns)` is empty, i.e. when
every kept column is in the discrete set; remove the dead columns. -/
def fit (metadata : Metadata) : FitResult :=
  let datetime_formats := metadata.datetime_format
  let datetime_columns :=
    metadata.datetime_columns.filter fun c => (dictGet? datetime_formats c).isSome
  let dead_columns :=
    metadata.datetime_columns.filter fun c => !(dictGet? datetime_formats c).isSome
  { state := ⟨datetime_columns, datetime_formats, dead_columns⟩
    reclassified := datetime_columns.all fun c => metadata.discrete_columns.contains c
    removed := dead_columns }

/-- The static method `convert_datetime_columns`: copy the table, then for
each listed column replace `result_data[column]` by
`result_data[column].apply(datetime_formatter, ...)`.  Indexing a column
absent from the table raises `KeyError`, which nothing in `convert` catches:
that uncaught exception is the `none` outcome. -/
def convert_datetime_columns (datetime_column_list : List String)
    (datetime_formats : List (String × String)) (processed_data : Table) :
    Option Table :=
  datetime_column_list.foldlM (fun acc column =>
    if acc.hasCol column then
      some (acc.applyCol column fun v =>
        datetime_formatter v (dictGetD datetime_formats column))
    else none) processed_data

/-- The dead-column removal loop at the head of `convert`. -/
def removeDead (st : FState) (t : Table) : Table :=
  st.dead_columns.foldl (fun acc c => remove_columns acc [c]) t

/-- `DatetimeFormatter.convert`: fast path returning the input itself when no
datetime columns were fitted; otherwise drop dead columns and convert the
fitted columns.  `none` models an uncaught exception. -/
def convert (st : FState) (raw_data : Table) : Option Table :=
  if st.datetime_columns.length = 0 then some raw_data
  else
    convert_datetime_columns st.datetime_columns st.datetime_formats
      (removeDead st raw_data)

/-- The static method `convert_timestamp_to_datetime`: copy the table, then
for each listed column present in the table replace its cells by
`column_timestamp_formatter` strings; a listed column absent from the table
is only logged and skipped, so the operation is total. -/
def convert_timestamp_to_datetime (timestamp_column_list : List String)
    (format_dict : List (String × String)) (processed_data : Table) : Table :=
  timestamp_column_list.foldl (fun acc column =>
    if acc.hasCol column then
      acc.applyCol column fun v =>
        .str (column_timestamp_formatter v (dictGetD format_dict column))
    else acc) processed_data

/-- `DatetimeFormatter.reverse_convert`: fast path returning the input itself
when no datetime columns were fitted; otherwise format the fitted columns. -/
def reverse_convert (st : FState) (processed_data : Table) : Table :=
  if st.datetime_columns.length = 0 then processed_data
  else
    convert_timestamp_to_datetime st.datetime_columns st.datetime_formats
      processed_data

/-- An object heap for the frame/aliasing claims: Python table objects live
at references; `.copy()` allocates, `df[col] = ...` writes through the
reference of the object being mutated. -/
structure Heap where
  next : Nat
  mem : Nat → Table

/-- Allocate a fresh table object, returning the new heap and its
reference. -/
def Heap.alloc (h : Heap) (t : Table) : Heap × Nat :=
  (⟨h.next + 1, fun r => if r = h.next then t else h.mem r⟩, h.next)

/-- Overwrite the object at reference `r` (an in-place mutation such as a
column assignment). -/
def Heap.write (h : Heap) (r : Nat) (t : Table) : Heap :=
  ⟨h.next, fun r2 => if r2 = r then t else h.mem r2⟩

/-- Heap-level `convert_datetime_columns`: `result_data =
processed_data.copy()` allocates a fresh object; every column assignment in
the loop writes through the `result_data` reference only. -/
def convert_datetime_columns_heap (datetime_column_list : List String)
    (datetime_formats : List (String × String)) (h : Heap) (dataRef : Nat) :
    Option (Heap × Nat) :=
  let copy := h.alloc (h.mem dataRef)
  (datetime_column_list.foldlM (fun hh column =>
      if ((hh : Heap).mem copy.2).hasCol column then
        some (hh.write copy.2 ((hh.mem copy.2).applyCol column fun v =>
          datetime_formatter v (dictGetD datetime_formats column)))
      else none) copy.1).map fun h2 => (h2, copy.2)

/-- Heap-level `convert`: the fast path returns the input reference itself;
the dead-column loop rebinds the local name to the fresh table returned by
`remove_columns` each time (the spec-modelled helper returns a new table). -/
def convert_heap (st : FState) (h : Heap) (rawRef : Nat) : Option (Heap × Nat) :=
  if st.datetime_columns.length = 0 then some (h, rawRef)
  else
    let cleaned := st.dead_columns.foldl
      (fun (p : Heap × Nat) c =>
        (p.1.alloc (remove_columns (p.1.mem p.2) [c])))
      (h, rawRef)
    convert_datetime_columns_heap st.datetime_columns st.datetime_formats
      cleaned.1 cleaned.2

/-- Heap-level `convert_timestamp_to_datetime`: copy, then write formatted
columns through the copy's reference only. -/
def convert_timestamp_to_datetime_heap (timestamp_column_list : List String)
    (format_dict : List (String × String)) (h : Heap) (dataRef : Nat) :
    Heap × Nat :=
  let copy := h.alloc (h.mem dataRef)
  (timestamp_column_list.foldl (fun hh column =>
      if ((hh : Heap).mem copy.2).hasCol column then
        hh.write copy.2 ((hh.mem copy.2).applyCol column fun v =>
          Cell.str (column_timestamp_formatter v (dictGetD format_dict column)))
      else hh) copy.1, copy.2)

/-- Heap-level `reverse_convert`: the fast path returns the input reference
itself. -/
def reverse_convert_heap (st : FState) (h : Heap) (ref : Nat) : Heap × Nat :=
  if st.datetime_columns.length = 0 then (h, ref)
  else
    convert_timestamp_to_datetime_heap st.datetime_columns st.datetime_formats
      h ref

theorem getCol_applyCol_self (t : Table) (c : String) (f : Cell → Cell) :
    (t.applyCol c f).getCol c = (t.getCol c).map (List.map f) := by
  rcases t with ⟨l⟩
  induction l with
  | nil => rfl
  | cons p rest ih =>
    simp only [Table.applyCol, Table.getCol, colsApply, colsGet] at *
    by_cases hp : p.1 = c
    · simp [hp]
    · simp [hp, ih]

theorem getCol_applyCol_ne (t : Table) (c c2 : String) (f : Cell → Cell)
    (h : c2 ≠ c) : (t.applyCol c f).getCol c2 = t.getCol c2 := by
  rcases t with ⟨l⟩
  induction l with
  | nil => rfl
  | cons p rest ih =>
    simp only [Table.applyCol, Table.getCol, colsApply, colsGet] at *
    by_cases hp : p.1 = c
    · have hq : ¬ (p.1 = c2) := fun hh => h (hh ▸ hp ▸ rfl)
      simp [hp, hq, h, Ne.symm h, ih]
    · by_cases hq : p.1 = c2
      · simp [hp, hq, h]
      · simp [hp, hq, ih]

theorem hasCol_applyCol (t : Table) (c c2 : String) (f : Cell → Cell) :
    (t.applyCol c f).hasCol c2 = t.hasCol c2 := by
  rcases t with ⟨l⟩
  induction l with
  | nil => rfl
  | cons p rest ih =>
    simp only [Table.applyCol, Table.hasCol, colsApply, colsHave] at *
    by_cases hp : p.1 = c
    · by_cases hq : p.1 = c2
      · have hcc : c = c2 := by rw [← hp, hq]
        simp [hp, hq, hcc, ih]
      · have hcc : ¬ (c = c2) := fun hh => hq (by rw [hp, hh])
        simp [hp, hq, hcc, ih]
    · by_cases hq : p.1 = c2
      · have hcc : ¬ (c2 = c) := fun hh => hp (by rw [hq, hh])
        simp [hp, hq, hcc, ih]
      · simp [hp, hq, ih]

theorem getCol_eq_none_of_hasCol_false (t : Table) (c : String)
    (h : t.hasCol c = false) : t.getCol c = none := by
  rcases t with ⟨l⟩
  induction l with
  | nil => rfl
  | cons p rest ih =>
    simp only [Table.hasCol, Table.getCol, colsHave, colsGet] at *
    by_cases hp : p.1 = c
    · simp [hp] at h
    · simp only [hp, reduceIte] at h ⊢
      exact ih h

theorem hasCol_remove_mem (t : Table) (cs : List String) (c : String)
    (h : c ∈ cs) : (remove_columns t cs).hasCol c = false := by
  rcases t with ⟨l⟩
  induction l with
  | nil => rfl
  | cons p rest ih =>
    simp only [remove_columns, Table.hasCol, colsDrop] at *
    by_cases hp : p.1 ∈ cs
    · simp only [hp, reduceIte, List.elem_eq_mem, decide_eq_true_eq]
      simpa [hp] using ih
    · have hpc : ¬ (p.1 = c) := fun hh => hp (hh ▸ h)
      simp only [List.elem_eq_mem, hp, decide_eq_true_eq, reduceIte, colsHave, hpc]
      simpa [hp] using ih

theorem hasCol_remove_not_mem (t : Table) (cs : List String) (c : String)
    (h : ¬ c ∈ cs) : (remove_columns t cs).hasCol c = t.hasCol c := by
  rcases t with ⟨l⟩
  induction l with
  | nil => rfl
  | cons p rest ih =>
    simp only [remove_columns, Table.hasCol, colsDrop] at *
    by_cases hp : p.1 ∈ cs
    · have hpc : ¬ (p.1 = c) := fun hh => h (hh ▸ hp)
      simp only [List.elem_eq_mem, hp, decide_eq_true_eq, reduceIte, colsHave, hpc]
      simpa [hp] using ih
    · by_cases hq : p.1 = c
      · simp [colsHave, hp, hq, h]
      · simp only [List.elem_eq_mem, hp, decide_eq_true_eq, reduceIte, colsHave, hq]
        simpa [hp] using ih

theorem cdc_hasCol (cols : List String) (fmts : List (String × String))
    (t out : Table) (h : convert_datetime_columns cols fmts t = some out)
    (c : String) : out.hasCol c = t.hasCol c := by
  induction cols generalizing t with
  | nil =>
    simp only [convert_datetime_columns, List.foldlM_nil, Option.pure_def,
      Option.some.injEq] at h
    subst h
    rfl
  | cons c0 rest ih =>
    simp only [convert_datetime_columns, List.foldlM_cons] at h
    by_cases h0 : t.hasCol c0
    · simp only [h0, reduceIte, Option.some_bind] at h
      have := ih _ h
      rwa [hasCol_applyCol] at this
    · simp only [Bool.not_eq_true] at h0
      simp [h0] at h

theorem cdc_exists (cols : List String) (fmts : List (String × String))
    (t : Table) (h : ∀ c ∈ cols, t.hasCol c = true) :
    ∃ out, convert_datetime_columns cols fmts t = some out := by
  induction cols generalizing t with
  | nil => exact ⟨t, rfl⟩
  | cons c0 rest ih =>
    have h0 : t.hasCol c0 = true := h c0 (List.mem_cons_self c0 rest)
    have hrest : ∀ c ∈ rest,
        ((t.applyCol c0 fun v =>
          datetime_formatter v (dictGetD fmts c0)).hasCol c) = true := by
      intro c hc
      rw [hasCol_applyCol]
      exact h c (List.mem_cons_of_mem _ hc)
    obtain ⟨out, hout⟩ := ih _ hrest
    refine ⟨out, ?_⟩
    simp only [convert_datetime_columns, List.foldlM_cons, h0, reduceIte,
      Option.some_bind]
    exact hout

theorem cdc_getCol_notmem (cols : List String) (fmts : List (String × String))
    (t out : Table) (c : String) (hc : ¬ c ∈ cols)
    (h : convert_datetime_columns cols fmts t = some out) :
    out.getCol c = t.getCol c := by
  induction cols generalizing t with
  | nil =>
    simp only [convert_datetime_columns, List.foldlM_nil, Option.pure_def,
      Option.some.injEq] at h
    subst h
    rfl
  | cons c0 rest ih =>
    simp only [convert_datetime_columns, List.foldlM_cons] at h
    have hcr : ¬ c ∈ rest := fun hh => hc (List.mem_cons_of_mem _ hh)
    have hc0 : c ≠ c0 := fun hh => hc (hh ▸ List.mem_cons_self c0 rest)
    by_cases h0 : t.hasCol c0
    · simp only [h0, reduceIte, Option.some_bind] at h
      rw [ih _ hcr h, getCol_applyCol_ne _ _ _ _ hc0]
    · simp only [Bool.not_eq_true] at h0
      simp [h0] at h

theorem cdc_getCol_mem (cols : List String) (fmts : List (String × String))
    (t out : Table) (c : String) (hnd : cols.Nodup) (hc : c ∈ cols)
    (h : convert_datetime_columns cols fmts t = some out) :
    out.getCol c = (t.getCol c).map
      (List.map fun v => datetime_formatter v (dictGetD fmts c)) := by
  induction cols generalizing t with
  | nil => cases hc
  | cons c0 rest ih =>
    simp only [convert_datetime_columns, List.foldlM_cons] at h
    by_cases h0 : t.hasCol c0
    · simp only [h0, reduceIte, Option.some_bind] at h
      rcases List.mem_cons.mp hc with hc0 | hcr
      · subst hc0
        have hcr : ¬ c ∈ rest := (List.nodup_cons.mp hnd).1
        rw [cdc_getCol_notmem rest fmts _ out c hcr h, getCol_applyCol_self]
      · have hne : c ≠ c0 := by
          intro hh
          exact (List.nodup_cons.mp hnd).1 (hh ▸ hcr)
        rw [ih _ (List.nodup_cons.mp hnd).2 hcr h, getCol_applyCol_ne _ _ _ _ hne]
    · simp only [Bool.not_eq_true] at h0
      simp [h0] at h

theorem foldl_remove_hasCol_false (cs : List String) (t : Table) (c : String)
    (h : t.hasCol c = false) :
    (cs.foldl (fun acc c2 => remove_columns acc [c2]) t).hasCol c = false := by
  induction cs generalizing t with
  | nil => exact h
  | cons c0 rest ih =>
    simp only [List.foldl_cons]
    apply ih
    by_cases hc0 : c ∈ [c0]
    · exact hasCol_remove_mem _ _ _ hc0
    · rw [hasCol_remove_not_mem _ _ _ hc0]
      exact h

theorem foldl_remove_hasCol_mem (cs : List String) (t : Table) (c : String)
    (h : c ∈ cs) :
    (cs.foldl (fun acc c2 => remove_columns acc [c2]) t).hasCol c = false := by
  induction cs generalizing t with
  | nil => cases h
  | cons c0 rest ih =>
    simp only [List.foldl_cons]
    rcases List.mem_cons.mp h with hc0 | hcr
    · apply foldl_remove_hasCol_false
      exact hasCol_remove_mem _ _ _ (by simp [hc0])
    · exact ih _ hcr

theorem ctd_hasCol (cols : List String) (fmts : List (String × String))
    (t : Table) (c : String) :
    (convert_timestamp_to_datetime cols fmts t).hasCol c = t.hasCol c := by
  induction cols generalizing t with
  | nil => rfl
  | cons c0 rest ih =>
    simp only [convert_timestamp_to_datetime, List.foldl_cons]
    by_cases h0 : t.hasCol c0
    · simp only [h0, reduceIte]
      have := ih ((t.applyCol c0 fun v =>
        Cell.str (column_timestamp_formatter v (dictGetD fmts c0))))
      simp only [convert_timestamp_to_datetime] at this
      rw [this, hasCol_applyCol]
    · simp only [Bool.not_eq_true] at h0
      simp only [h0, Bool.false_eq_true, reduceIte]
      have := ih t
      simp only [convert_timestamp_to_datetime] at this
      rw [this]

theorem ctd_getCol_notmem (cols : List String) (fmts : List (String × String))
    (t : Table) (c : String) (hc : ¬ c ∈ cols) :
    (convert_timestamp_to_datetime cols fmts t).getCol c = t.getCol c := by
  induction cols generalizing t with
  | nil => rfl
  | cons c0 rest ih =>
    have hcr : ¬ c ∈ rest := fun hh => hc (List.mem_cons_of_mem _ hh)
    have hc0 : c ≠ c0 := fun hh => hc (hh ▸ List.mem_cons_self c0 rest)
    simp only [convert_timestamp_to_datetime, List.foldl_cons]
    by_cases h0 : t.hasCol c0
    · simp only [h0, reduceIte]
      have := ih ((t.applyCol c0 fun v =>
        Cell.str (column_timestamp_formatter v (dictGetD fmts c0)))) hcr
      simp only [convert_timestamp_to_datetime] at this
      rw [this, getCol_applyCol_ne _ _ _ _ hc0]
    · simp only [Bool.not_eq_true] at h0
      simp only [h0, Bool.false_eq_true, reduceIte]
      have := ih t hcr
      simp only [convert_timestamp_to_datetime] at this
      rw [this]

theorem ctf_cases (v : Cell) (fmt : String) :
    (∃ n : Int, column_timestamp_formatter v fmt
        = strftime (fromtimestamp n) fmt)
    ∨ column_timestamp_formatter v fmt = "No Datetime" := by
  cases v with
  | missing => exact Or.inr rfl
  | str s => exact Or.inr rfl
  | dt d => exact Or.inr rfl
  | num n =>
    by_cases h : 0 ≤ n ∧ n ≤ 253402300799
    · exact Or.inl ⟨n, by simp [column_timestamp_formatter, h]⟩
    · exact Or.inr (by simp [column_timestamp_formatter, h])

theorem ctd_cells_ok (cols : List String) (fmts : List (String × String))
    (t : Table) (c : String) (hc : c ∈ cols) (cells : List Cell)
    (hg : (convert_timestamp_to_datetime cols fmts t).getCol c = some cells)
    (v : Cell) (hv : v ∈ cells) :
    (∃ n : Int, v = Cell.str (strftime (fromtimestamp n) (dictGetD fmts c)))
    ∨ v = Cell.str "No Datetime" := by
  induction cols generalizing t cells with
  | nil => cases hc
  | cons c0 rest ih =>
    by_cases hcr : c ∈ rest
    · have step : convert_timestamp_to_datetime (c0 :: rest) fmts t
          = convert_timestamp_to_datetime rest fmts
            (if t.hasCol c0 then
              t.applyCol c0 fun w =>
                Cell.str (column_timestamp_formatter w (dictGetD fmts c0))
             else t) := rfl
      rw [step] at hg
      exact ih _ hcr _ hg hv
    · have hc0 : c = c0 := by
        rcases List.mem_cons.mp hc with h | h
        · exact h
        · exact absurd h hcr
      subst hc0
      have step : convert_timestamp_to_datetime (c :: rest) fmts t
          = convert_timestamp_to_datetime rest fmts
            (if t.hasCol c then
              t.applyCol c fun w =>
                Cell.str (column_timestamp_formatter w (dictGetD fmts c))
             else t) := rfl
      rw [step, ctd_getCol_notmem _ _ _ _ hcr] at hg
      by_cases h0 : t.hasCol c
      · rw [if_pos h0, getCol_applyCol_self] at hg
        rcases hmap : t.getCol c with _ | cells0
        · rw [hmap] at hg
          cases hg
        · rw [hmap] at hg
          rw [Option.map_some'] at hg
          cases hg
          obtain ⟨w, hw, hweq⟩ := List.mem_map.mp hv
          rcases ctf_cases w (dictGetD fmts c) with ⟨n, hn⟩ | hn
          · exact Or.inl ⟨n, by rw [← hweq, hn]⟩
          · exact Or.inr (by rw [← hweq, hn])
      · rw [if_neg h0,
          getCol_eq_none_of_hasCol_false _ _ (by simpa using h0)] at hg
        cases hg

/-- C2: for every input table and every fitted state, `reverse_convert`
never raises (it is a total function in this embedding: the per-cell
`try/except` absorbs all value-level failures and absent columns are
skipped), and every cell of every processed column in its output is either a
datetime string rendered with the column's stored format
(`strftime (fromtimestamp n) fmt`) or exactly the sentinel
`"No Datetime"` — never a raw number and never a propagated error. -/
theorem c2_reverse_output_form (st : FState) (t : Table) (c : String)
    (cells : List Cell) (v : Cell)
    (hc : c ∈ st.datetime_columns)
    (hg : (reverse_convert st t).getCol c = some cells)
    (hv : v ∈ cells) :
    (∃ n : Int, v = Cell.str
        (strftime (fromtimestamp n) (dictGetD st.datetime_formats c)))
    ∨ v = Cell.str "No Datetime" := by
  have hne : st.datetime_columns ≠ [] := List.ne_nil_of_mem hc
  have hlen : ¬ st.datetime_columns.length = 0 := by
    simpa [List.length_eq_zero] using hne
  rw [reverse_convert, if_neg hlen] at hg
  exact ctd_cells_ok _ _ _ _ hc _ hg _ hv

/-- Witness for C2 at a concrete fitted state and table: the two cells of
the processed column are a formatted date and the sentinel. -/
theorem c2_reverse_output_form_witness :
    ((∃ n : Int, Cell.str "1970-01-01"
        = Cell.str (strftime (fromtimestamp n)
            (dictGetD [("a", "%Y-%m-%d")] "a")))
      ∨ Cell.str "1970-01-01" = Cell.str "No Datetime")
    ∧ ((∃ n : Int, Cell.str "No Datetime"
        = Cell.str (strftime (fromtimestamp n)
            (dictGetD [("a", "%Y-%m-%d")] "a")))
      ∨ Cell.str "No Datetime" = Cell.str "No Datetime") :=
  ⟨c2_reverse_output_form ⟨["a"], [("a", "%Y-%m-%d")], []⟩
      ⟨[("a", [Cell.num 0, Cell.missing])]⟩ "a"
      [Cell.str "1970-01-01", Cell.str "No Datetime"] (Cell.str "1970-01-01")
      (by decide) (by decide) (by decide),
    c2_reverse_output_form ⟨["a"], [("a", "%Y-%m-%d")], []⟩
      ⟨[("a", [Cell.num 0, Cell.missing])]⟩ "a"
      [Cell.str "1970-01-01", Cell.str "No Datetime"] (Cell.str "No Datetime")
      (by decide) (by decide) (by decide)⟩

/-- C4: in `reverse_convert`'s per-cell formatter, timestamps exactly `0` and
exactly `253402300799` pass the validity guard and produce the formatted
rendering (concretely `"1970-01-01 00:00:00"` and `"9999-12-31 23:59:59"`,
not the sentinel), while `-1`, `253402300800`, and every numeric value
outside the inclusive range `[0, 253402300799]` produce the sentinel
`"No Datetime"`. -/
theorem c4_timestamp_bounds (fmt : String) (n : Int)
    (h : ¬ (0 ≤ n ∧ n ≤ 253402300799)) :
    column_timestamp_formatter (Cell.num 0) fmt
        = strftime (fromtimestamp 0) fmt
    ∧ column_timestamp_formatter (Cell.num 253402300799) fmt
        = strftime (fromtimestamp 253402300799) fmt
    ∧ column_timestamp_formatter (Cell.num 0) "%Y-%m-%d %H:%M:%S"
        = "1970-01-01 00:00:00"
    ∧ column_timestamp_formatter (Cell.num 253402300799) "%Y-%m-%d %H:%M:%S"
        = "9999-12-31 23:59:59"
    ∧ column_timestamp_formatter (Cell.num (-1)) fmt = "No Datetime"
    ∧ column_timestamp_formatter (Cell.num 253402300800) fmt = "No Datetime"
    ∧ column_timestamp_formatter (Cell.num n) fmt = "No Datetime" := by
  refine ⟨?_, ?_, by decide, by decide, ?_, ?_, ?_⟩
  · simp [column_timestamp_formatter]
  · simp [column_timestamp_formatter]
  · simp [column_timestamp_formatter]
  · simp [column_timestamp_formatter]
  · simp only [column_timestamp_formatter, if_neg h]

/-- Witness for C4 at `fmt = "%Y-%m-%d"` and the out-of-range value `-7`. -/
theorem c4_timestamp_bounds_witness :
    column_timestamp_formatter (Cell.num 0) "%Y-%m-%d"
        = strftime (fromtimestamp 0) "%Y-%m-%d"
    ∧ column_timestamp_formatter (Cell.num 253402300799) "%Y-%m-%d"
        = strftime (fromtimestamp 253402300799) "%Y-%m-%d"
    ∧ column_timestamp_formatter (Cell.num 0) "%Y-%m-%d %H:%M:%S"
        = "1970-01-01 00:00:00"
    ∧ column_timestamp_formatter (Cell.num 253402300799) "%Y-%m-%d %H:%M:%S"
        = "9999-12-31 23:59:59"
    ∧ column_timestamp_formatter (Cell.num (-1)) "%Y-%m-%d" = "No Datetime"
    ∧ column_timestamp_formatter (Cell.num 253402300800) "%Y-%m-%d"
        = "No Datetime"
    ∧ column_timestamp_formatter (Cell.num (-7)) "%Y-%m-%d" = "No Datetime" :=
  c4_timestamp_bounds "%Y-%m-%d" (-7) (by decide)

/-- C8: when `usable_columns` is empty after fit, both `convert` and
`reverse_convert` return the input table unchanged — same columns, same cell
values, including any dead columns still present in the input. -/
theorem c8_empty_usable_identity (st : FState) (t : Table)
    (h : st.datetime_columns = []) :
    convert st t = some t ∧ reverse_convert st t = t := by
  constructor
  · rw [convert, if_pos (by simp [h])]
  · rw [reverse_convert, if_pos (by simp [h])]

/-- Witness for C8: a state with a dead column and no usable column leaves a
table that still contains the dead column untouched. -/
theorem c8_empty_usable_identity_witness :
    convert ⟨[], [], ["dead0"]⟩ ⟨[("dead0", [Cell.str "x"]), ("b", [Cell.num 5])]⟩
        = some ⟨[("dead0", [Cell.str "x"]), ("b", [Cell.num 5])]⟩
    ∧ reverse_convert ⟨[], [], ["dead0"]⟩
        ⟨[("dead0", [Cell.str "x"]), ("b", [Cell.num 5])]⟩
        = ⟨[("dead0", [Cell.str "x"]), ("b", [Cell.num 5])]⟩ :=
  c8_empty_usable_identity ⟨[], [], ["dead0"]⟩
    ⟨[("dead0", [Cell.str "x"]), ("b", [Cell.num 5])]⟩ rfl

theorem convert_single (col fmt : String) (v : Cell) :
    convert ⟨[col], [(col, fmt)], []⟩ ⟨[(col, [v])]⟩
      = some ⟨[(col, [datetime_formatter v fmt])]⟩ := by
  rw [convert, if_neg (by simp)]
  show convert_datetime_columns [col] [(col, fmt)] ⟨[(col, [v])]⟩
      = some ⟨[(col, [datetime_formatter v fmt])]⟩
  simp [convert_datetime_columns, Table.hasCol, colsHave, Table.applyCol,
    colsApply, dictGetD, dictGet?]

theorem reverse_single (col fmt : String) (v : Cell) :
    reverse_convert ⟨[col], [(col, fmt)], []⟩ ⟨[(col, [v])]⟩
      = ⟨[(col, [Cell.str (column_timestamp_formatter v fmt)])]⟩ := by
  rw [reverse_convert, if_neg (by simp)]
  simp [convert_timestamp_to_datetime, Table.hasCol, colsHave, Table.applyCol,
    colsApply, dictGetD, dictGet?]

/-- C1: round-trip law (bounded).  For every cell value `v` that parses under
the column's format string `f` to a datetime `d` whose timestamp
`t = timestampOf d` satisfies `0 ≤ t ≤ 253402300799`, `convert` on a table
containing `v` produces the timestamp `t`, and `reverse_convert` on that
output yields the `f`-formatted rendering of `t`
(`strftime (fromtimestamp t) f`) — the rendering of `t` at the precision
expressible in `f`. -/
theorem c1_round_trip (col v f : String) (d : DT)
    (h1 : strptime v f = some d)
    (h2 : 0 ≤ timestampOf d)
    (h3 : timestampOf d ≤ 253402300799) :
    convert ⟨[col], [(col, f)], []⟩ ⟨[(col, [Cell.str v])]⟩
      = some ⟨[(col, [Cell.num (timestampOf d)])]⟩
    ∧ reverse_convert ⟨[col], [(col, f)], []⟩
        ⟨[(col, [Cell.num (timestampOf d)])]⟩
      = ⟨[(col, [Cell.str (strftime (fromtimestamp (timestampOf d)) f)])]⟩ := by
  constructor
  · rw [convert_single]
    simp [datetime_formatter, h1]
  · rw [reverse_single]
    simp [column_timestamp_formatter, h2, h3]

/-- Witness for C1 at `v = "2023-01-02"`, `f = "%Y-%m-%d"`: the parsed
timestamp is 1672617600 and the round trip reproduces the rendering. -/
theorem c1_round_trip_witness :
    convert ⟨["d"], [("d", "%Y-%m-%d")], []⟩ ⟨[("d", [Cell.str "2023-01-02"])]⟩
      = some ⟨[("d", [Cell.num (timestampOf ⟨2023, 1, 2, 0, 0, 0⟩)])]⟩
    ∧ reverse_convert ⟨["d"], [("d", "%Y-%m-%d")], []⟩
        ⟨[("d", [Cell.num (timestampOf ⟨2023, 1, 2, 0, 0, 0⟩)])]⟩
      = ⟨[("d", [Cell.str (strftime
          (fromtimestamp (timestampOf ⟨2023, 1, 2, 0, 0, 0⟩)) "%Y-%m-%d")])]⟩ :=
  c1_round_trip "d" "2023-01-02" "%Y-%m-%d" ⟨2023, 1, 2, 0, 0, 0⟩
    (by decide) (by decide) (by decide)

/-- C10: in `convert`, a non-missing cell of a usable column holding a plain
number `x` (not a native datetime value) is not passed through as a
timestamp: it is stringified (`str(x)`, i.e. `floatStr x`) and parsed
against the column's format string, so it becomes the missing marker unless
its textual rendering happens to match the format. -/
theorem c10_numeric_reparsed (x : Int) (col fmt : String) :
    convert ⟨[col], [(col, fmt)], []⟩ ⟨[(col, [Cell.num x])]⟩
      = some ⟨[(col,
          [match strptime (floatStr x) fmt with
           | some d => Cell.num (timestampOf d)
           | none => Cell.missing])]⟩
    ∧ (strptime (floatStr x) fmt = none →
        convert ⟨[col], [(col, fmt)], []⟩ ⟨[(col, [Cell.num x])]⟩
          = some ⟨[(col, [Cell.missing])]⟩) := by
  constructor
  · rw [convert_single]
    rfl
  · intro h
    rw [convert_single]
    simp [datetime_formatter, h]

/-- Witness for C10: the numeric cell `5` stringifies to `"5.0"`, which does
not parse under `"%Y-%m-%d"`, so the cell becomes missing rather than being
passed through. -/
theorem c10_numeric_reparsed_witness :
    convert ⟨["a"], [("a", "%Y-%m-%d")], []⟩ ⟨[("a", [Cell.num 5])]⟩
      = some ⟨[("a", [Cell.missing])]⟩ :=
  (c10_numeric_reparsed 5 "a" "%Y-%m-%d").2 (by decide)

/-- C3 counterexample: the claim asserts `convert` never raises to the
caller, but when a usable column is absent from the input table,
`result_data[column]` in `convert_datetime_columns` raises an uncaught
`KeyError` (modelled as `none`): here the state has usable column `"a"` and
the table only has column `"b"`. -/
theorem c3_counterexample :
    convert ⟨["a"], [("a", "%Y-%m-%d")], []⟩ ⟨[("b", [Cell.str "2023-01-01"])]⟩
      = none := by decide

/-- C3 (amended): in `convert`, provided every usable column is present in
the input table (after dead-column removal) and the usable columns are
distinct, `convert` does not raise: it returns a table in which every usable
column is mapped cell-by-cell through `datetime_formatter` (so a missing
marker propagates as missing, a parse failure becomes a missing marker for
that cell only) and all other columns are untouched. -/
theorem c3_cellwise_containment (st : FState) (t : Table)
    (hnd : st.datetime_columns.Nodup)
    (hne : st.datetime_columns ≠ [])
    (hpres : ∀ c ∈ st.datetime_columns, (removeDead st t).hasCol c = true) :
    ∃ out, convert st t = some out
      ∧ (∀ c ∈ st.datetime_columns,
          out.getCol c = ((removeDead st t).getCol c).map
            (List.map fun v => datetime_formatter v (dictGetD st.datetime_formats c)))
      ∧ (∀ c, ¬ c ∈ st.datetime_columns →
          out.getCol c = (removeDead st t).getCol c)
      ∧ (∀ fmt, datetime_formatter Cell.missing fmt = Cell.missing)
      ∧ (∀ s fmt, strptime s fmt = none →
          datetime_formatter (Cell.str s) fmt = Cell.missing) := by
  obtain ⟨out, hout⟩ :=
    cdc_exists st.datetime_columns st.datetime_formats (removeDead st t) hpres
  have hlen : ¬ st.datetime_columns.length = 0 := by
    simpa [List.length_eq_zero] using hne
  refine ⟨out, ?_, ?_, ?_, fun _ => rfl, ?_⟩
  · rw [convert, if_neg hlen]
    exact hout
  · intro c hc
    exact cdc_getCol_mem _ _ _ _ _ hnd hc hout
  · intro c hc
    exact cdc_getCol_notmem _ _ _ _ _ hc hout
  · intro s fmt h
    simp [datetime_formatter, h]

/-- Witness for C3 (amended) at a concrete state and three-cell column
containing a valid date, an unparseable string and a missing marker. -/
theorem c3_cellwise_containment_witness :
    ∃ out,
      convert ⟨["a"], [("a", "%Y-%m-%d")], []⟩
          ⟨[("a", [Cell.str "1990-01-01", Cell.str "invalid", Cell.missing]),
            ("b", [Cell.num 7])]⟩ = some out
      ∧ (∀ c ∈ (⟨["a"], [("a", "%Y-%m-%d")], []⟩ : FState).datetime_columns,
          out.getCol c
            = ((removeDead ⟨["a"], [("a", "%Y-%m-%d")], []⟩
                ⟨[("a", [Cell.str "1990-01-01", Cell.str "invalid", Cell.missing]),
                  ("b", [Cell.num 7])]⟩).getCol c).map
              (List.map fun v => datetime_formatter v
                (dictGetD [("a", "%Y-%m-%d")] c)))
      ∧ (∀ c, ¬ c ∈ (⟨["a"], [("a", "%Y-%m-%d")], []⟩ : FState).datetime_columns →
          out.getCol c
            = (removeDead ⟨["a"], [("a", "%Y-%m-%d")], []⟩
                ⟨[("a", [Cell.str "1990-01-01", Cell.str "invalid", Cell.missing]),
                  ("b", [Cell.num 7])]⟩).getCol c)
      ∧ (∀ fmt, datetime_formatter Cell.missing fmt = Cell.missing)
      ∧ (∀ s fmt, strptime s fmt = none →
          datetime_formatter (Cell.str s) fmt = Cell.missing) :=
  c3_cellwise_containment ⟨["a"], [("a", "%Y-%m-%d")], []⟩
    ⟨[("a", [Cell.str "1990-01-01", Cell.str "invalid", Cell.missing]),
      ("b", [Cell.num 7])]⟩
    (by decide) (by decide) (by decide)

/-- C5 counterexample: the claim asserts a dead column is absent from the
output of `reverse_convert`, but `reverse_convert` never removes columns:
with fitted state usable `["a"]` / dead `["dead1"]` (produced by `fit`) and
an input containing `"dead1"`, the output still contains `"dead1"`. -/
theorem c5_counterexample :
    "dead1" ∈ (fit ⟨[("a", "%Y-%m-%d")], ["a", "dead1"], []⟩).state.dead_columns
    ∧ (reverse_convert (fit ⟨[("a", "%Y-%m-%d")], ["a", "dead1"], []⟩).state
        ⟨[("a", [Cell.num 0]), ("dead1", [Cell.str "x"])]⟩).hasCol "dead1"
      = true := by decide

/-- C5 (amended): a dead column is absent from the output of `convert`
whenever `usable_columns` is nonempty (the dead-column removal loop runs and
the conversion never re-adds columns); `reverse_convert`, however, leaves
dead columns in place — a column's presence in its output equals its
presence in the input (and when `usable_columns` is empty, `convert` also
returns the input unchanged, dead columns included). -/
theorem c5_dead_column_fate (st : FState) (t : Table) (c : String)
    (hc : c ∈ st.dead_columns) :
    (st.datetime_columns ≠ [] →
      ∀ out, convert st t = some out → out.hasCol c = false)
    ∧ (reverse_convert st t).hasCol c = t.hasCol c := by
  constructor
  · intro hne out hout
    have hlen : ¬ st.datetime_columns.length = 0 := by
      simpa [List.length_eq_zero] using hne
    rw [convert, if_neg hlen] at hout
    rw [cdc_hasCol _ _ _ _ hout]
    exact foldl_remove_hasCol_mem _ _ _ hc
  · by_cases hlen : st.datetime_columns.length = 0
    · rw [reverse_convert, if_pos hlen]
    · rw [reverse_convert, if_neg hlen]
      exact ctd_hasCol _ _ _ _

/-- Witness for C5 (amended) at the fitted state of the counterexample
metadata: `convert` removes `"dead1"`, `reverse_convert` keeps it. -/
theorem c5_dead_column_fate_witness :
    (∀ out,
      convert (fit ⟨[("a", "%Y-%m-%d")], ["a", "dead1"], []⟩).state
          ⟨[("a", [Cell.str "1990-01-01"]), ("dead1", [Cell.str "x"])]⟩
        = some out → out.hasCol "dead1" = false)
    ∧ (reverse_convert (fit ⟨[("a", "%Y-%m-%d")], ["a", "dead1"], []⟩).state
        ⟨[("a", [Cell.str "1990-01-01"]), ("dead1", [Cell.str "x"])]⟩).hasCol "dead1"
      = (⟨[("a", [Cell.str "1990-01-01"]), ("dead1", [Cell.str "x"])]⟩ : Table).hasCol "dead1" :=
  ⟨(c5_dead_column_fate (fit ⟨[("a", "%Y-%m-%d")], ["a", "dead1"], []⟩).state
      ⟨[("a", [Cell.str "1990-01-01"]), ("dead1", [Cell.str "x"])]⟩ "dead1"
      (by decide)).1 (by decide),
    (c5_dead_column_fate (fit ⟨[("a", "%Y-%m-%d")], ["a", "dead1"], []⟩).state
      ⟨[("a", [Cell.str "1990-01-01"]), ("dead1", [Cell.str "x"])]⟩ "dead1"
      (by decide)).2⟩

/-- C6 counterexample: the claim predicts the reclassification call when
every usable column is NOT in the discrete set; here usable = `["a"]` and the
discrete set is empty (so every usable column is not discrete), yet `fit`
does not issue the call, because the code's test
`not (set(datetime_columns) - set(metadata.discrete_columns))` requires
every usable column to BE in the discrete set. -/
theorem c6_counterexample :
    (∀ c ∈ (fit ⟨[("a", "%Y-%m-%d")], ["a"], []⟩).state.datetime_columns,
      ¬ c ∈ (⟨[("a", "%Y-%m-%d")], ["a"], []⟩ : Metadata).discrete_columns)
    ∧ (fit ⟨[("a", "%Y-%m-%d")], ["a"], []⟩).reclassified = false := by decide

/-- C6 (amended): during fit, the transformer instructs the metadata
collaborator to reclassify exactly when every usable column IS currently in
the discrete-classified set (`set(usable) - set(discrete)` empty); otherwise
the call is skipped. -/
theorem c6_reclassify_condition (meta : Metadata) :
    (fit meta).reclassified = true
      ↔ ∀ c ∈ (fit meta).state.datetime_columns, c ∈ meta.discrete_columns := by
  simp only [fit, List.all_eq_true, List.mem_filter, and_imp,
    List.contains_iff_exists_mem_beq, beq_iff_eq]
  constructor
  · intro h c hc hs
    obtain ⟨c2, hc2, hc2eq⟩ := h c hc hs
    exact hc2eq ▸ hc2
  · intro h c hc hs
    exact ⟨c, h c hc hs, rfl⟩

/-- C7 counterexample: the claim says a datetime-classified column joins
`usable_columns` exactly when it has a NON-EMPTY entry in the format
mapping; here column `"a"`'s entry is the empty string, yet `fit` puts it in
`usable_columns` (and not in `dead_columns`), because the code only tests
key membership (`each_col in self.datetime_formats.keys()`). -/
theorem c7_counterexample :
    "a" ∈ (fit ⟨[("a", "")], ["a"], []⟩).state.datetime_columns
    ∧ dictGet? (⟨[("a", "")], ["a"], []⟩ : Metadata).datetime_format "a" = some ""
    ∧ (fit ⟨[("a", "")], ["a"], []⟩).state.dead_columns = [] := by decide

/-- C7 (amended): during fit, a column joins `usable_columns` exactly when it
is datetime-classified and has an entry (a key, regardless of the entry's
value, empty included) in the format mapping, and joins `dead_columns`
exactly when it is datetime-classified without such an entry; hence no
column outside the datetime-classified set joins either sequence. -/
theorem c7_partition_by_key (meta : Metadata) (c : String) :
    (c ∈ (fit meta).state.datetime_columns
      ↔ c ∈ meta.datetime_columns ∧ (dictGet? meta.datetime_format c).isSome = true)
    ∧ (c ∈ (fit meta).state.dead_columns
      ↔ c ∈ meta.datetime_columns ∧ (dictGet? meta.datetime_format c).isSome = false) := by
  constructor
  · simp [fit, List.mem_filter]
  · simp [fit, List.mem_filter]

theorem alloc_mem_of_lt (h : Heap) (t : Table) (r : Nat) (hr : r < h.next) :
    ((h.alloc t).1).mem r = h.mem r := by
  simp only [Heap.alloc]
  rw [if_neg (Nat.ne_of_lt hr)]

theorem write_mem_of_ne (h : Heap) (t : Table) (r r2 : Nat) (hr : r ≠ r2) :
    ((h.write r2 t)).mem r = h.mem r := by
  simp only [Heap.write]
  rw [if_neg hr]

theorem foldl_dead_heap (cs : List String) (hh : Heap) (rr r : Nat)
    (hr : r < hh.next) :
    ((cs.foldl (fun (p : Heap × Nat) c =>
        p.1.alloc (remove_columns (p.1.mem p.2) [c])) (hh, rr)).1.mem r
        = hh.mem r)
    ∧ hh.next ≤ (cs.foldl (fun (p : Heap × Nat) c =>
        p.1.alloc (remove_columns (p.1.mem p.2) [c])) (hh, rr)).1.next := by
  induction cs generalizing hh rr with
  | nil => exact ⟨rfl, Nat.le_refl _⟩
  | cons c0 rest ih =>
    simp only [List.foldl_cons]
    have hnext : r < ((hh.alloc (remove_columns (hh.mem rr) [c0])).1).next :=
      Nat.lt_trans hr (by simp [Heap.alloc])
    obtain ⟨h1, h2⟩ := ih _ _ hnext
    refine ⟨?_, ?_⟩
    · rw [h1, alloc_mem_of_lt _ _ _ hr]
    · exact Nat.le_trans (Nat.le_of_lt (by simp [Heap.alloc])) h2

theorem foldlM_write_mem (cols : List String)
    (fmts : List (String × String)) (res : Nat) (hh h2 : Heap) (r : Nat)
    (hr : r ≠ res)
    (h : cols.foldlM (fun hh column =>
        if ((hh : Heap).mem res).hasCol column then
          some (hh.write res ((hh.mem res).applyCol column fun v =>
            datetime_formatter v (dictGetD fmts column)))
        else none) hh = some h2) :
    h2.mem r = hh.mem r := by
  induction cols generalizing hh with
  | nil =>
    simp only [List.foldlM_nil, Option.pure_def, Option.some.injEq] at h
    subst h
    rfl
  | cons c0 rest ih =>
    simp only [List.foldlM_cons] at h
    by_cases h0 : (hh.mem res).hasCol c0
    · simp only [h0, reduceIte, Option.some_bind] at h
      rw [ih _ h, write_mem_of_ne _ _ _ _ hr]
    · simp only [Bool.not_eq_true] at h0
      simp [h0] at h

theorem foldl_write_mem (cols : List String)
    (fmts : List (String × String)) (res : Nat) (hh : Heap) (r : Nat)
    (hr : r ≠ res) :
    (cols.foldl (fun hh column =>
        if ((hh : Heap).mem res).hasCol column then
          hh.write res ((hh.mem res).applyCol column fun v =>
            Cell.str (column_timestamp_formatter v (dictGetD fmts column)))
        else hh) hh).mem r = hh.mem r := by
  induction cols generalizing hh with
  | nil => rfl
  | cons c0 rest ih =>
    simp only [List.foldl_cons]
    by_cases h0 : (hh.mem res).hasCol c0
    · simp only [h0, reduceIte]
      rw [ih _, write_mem_of_ne _ _ _ _ hr]
    · simp only [Bool.not_eq_true] at h0
      simp only [h0, Bool.false_eq_true, reduceIte]
      exact ih _

/-- C9 counterexample: the claim says each operation returns a new table,
but with no fitted datetime columns the fast path returns the caller's very
table object (the same reference, 0, comes back — not a fresh copy). -/
theorem c9_counterexample :
    (convert_heap ⟨[], [], []⟩ ⟨1, fun _ => ⟨[("x", [Cell.num 1])]⟩⟩ 0).map
        Prod.snd = some 0
    ∧ (reverse_convert_heap ⟨[], [], []⟩
        ⟨1, fun _ => ⟨[("x", [Cell.num 1])]⟩⟩ 0).2 = 0 := by
  exact ⟨rfl, rfl⟩

/-- C9 (amended): `convert` and `reverse_convert` never mutate the caller's
input table — after either call the object at the input reference holds
exactly the table it held before (all writes go through the `.copy()`
allocated inside, and `remove_columns` returns fresh tables).  When
`usable_columns` is nonempty the returned reference is a fresh object
distinct from the input; when it is empty the fast path returns the input
object itself (unmutated) rather than a new table. -/
theorem c9_no_input_mutation (st : FState) (h : Heap) (r : Nat)
    (hr : r < h.next) :
    (∀ h2 r2, convert_heap st h r = some (h2, r2) →
        h2.mem r = h.mem r ∧ (st.datetime_columns ≠ [] → r2 ≠ r))
    ∧ (reverse_convert_heap st h r).1.mem r = h.mem r
    ∧ (st.datetime_columns ≠ [] → (reverse_convert_heap st h r).2 ≠ r) := by
  refine ⟨?_, ?_, ?_⟩
  · intro h2 r2 hconv
    by_cases hlen : st.datetime_columns.length = 0
    · rw [convert_heap, if_pos hlen] at hconv
      cases hconv
      refine ⟨rfl, fun hne => absurd (List.length_eq_zero.mp hlen) hne⟩
    · rw [convert_heap, if_neg hlen] at hconv
      obtain ⟨hmemc, hnextc⟩ := foldl_dead_heap st.dead_columns h r r hr
      set cleaned := st.dead_columns.foldl (fun (p : Heap × Nat) c =>
        p.1.alloc (remove_columns (p.1.mem p.2) [c])) (h, r) with hcl
      have hrlt : r < cleaned.1.next := Nat.lt_of_lt_of_le hr hnextc
      simp only [convert_datetime_columns_heap, Option.map_eq_some'] at hconv
      obtain ⟨hmid, hfold, heq⟩ := hconv
      cases heq
      constructor
      · rw [foldlM_write_mem _ _ _ _ _ _ (Nat.ne_of_lt hrlt) hfold,
          alloc_mem_of_lt _ _ _ hrlt, hmemc]
      · intro _
        exact Ne.symm (Nat.ne_of_lt hrlt)
  · by_cases hlen : st.datetime_columns.length = 0
    · rw [reverse_convert_heap, if_pos hlen]
    · rw [reverse_convert_heap, if_neg hlen]
      exact (foldl_write_mem st.datetime_columns st.datetime_formats
          ((h.alloc (h.mem r)).2) ((h.alloc (h.mem r)).1) r
          (Nat.ne_of_lt hr)).trans (alloc_mem_of_lt h (h.mem r) r hr)
  · intro hne
    have hlen : ¬ st.datetime_columns.length = 0 := by
      simpa [List.length_eq_zero] using hne
    rw [reverse_convert_heap, if_neg hlen]
    exact Ne.symm (Nat.ne_of_lt hr)

/-- Witness for C9 (amended) at a one-object heap: the input object is
untouched and the returned references are fresh. -/
theorem c9_no_input_mutation_witness :
    ((convert_heap ⟨["a"], [("a", "%Y-%m-%d")], []⟩
          ⟨1, fun _ => ⟨[("a", [Cell.str "1990-01-01"])]⟩⟩ 0).map
        (fun p => (p.1.mem 0, p.2))
      = some (⟨[("a", [Cell.str "1990-01-01"])]⟩, 1))
    ∧ (reverse_convert_heap ⟨["a"], [("a", "%Y-%m-%d")], []⟩
          ⟨1, fun _ => ⟨[("a", [Cell.str "1990-01-01"])]⟩⟩ 0).1.mem 0
        = ⟨[("a", [Cell.str "1990-01-01"])]⟩
    ∧ (reverse_convert_heap ⟨["a"], [("a", "%Y-%m-%d")], []⟩
          ⟨1, fun _ => ⟨[("a", [Cell.str "1990-01-01"])]⟩⟩ 0).2 ≠ 0 :=
  ⟨by decide,
    (c9_no_input_mutation ⟨["a"], [("a", "%Y-%m-%d")], []⟩
      ⟨1, fun _ => ⟨[("a", [Cell.str "1990-01-01"])]⟩⟩ 0 (by decide)).2.1,
    (c9_no_input_mutation ⟨["a"], [("a", "%Y-%m-%d")], []⟩
      ⟨1, fun _ => ⟨[("a", [Cell.str "1990-01-01"])]⟩⟩ 0 (by decide)).2.2
      (by decide)⟩
